import Mathlib

/-!
Shallow embedding of the Qubic Smart Contract Auditor frontend
(`src/src/App.js`, plus the `App` variant in `src/unnamed/part_000` for the
results-panel rendering).  JavaScript strings are modelled as `List Char`;
DOM and network effects are modelled by explicit state passing, with the
outcome of each asynchronous call supplied as an explicit parameter.
-/

namespace QubicApp

/-- The whitespace characters stripped by `String.prototype.trim`
(space, tab, line feed, carriage return, vertical tab, form feed). -/
def isJsWhitespace (c : Char) : Bool :=
  c = ' ' || c = '\t' || c = '\n' || c = '\r' || c = '\x0b' || c = '\x0c'

/-- `String.prototype.trim`: strip leading and trailing whitespace. -/
def trim (s : List Char) : List Char :=
  ((s.dropWhile isJsWhitespace).reverse.dropWhile isJsWhitespace).reverse

/-- `String.prototype.split` with a one-character separator.  JS `split`
never returns an empty array; splitting the empty string yields one empty
segment, and a trailing separator contributes a trailing empty segment. -/
def jsSplit (sep : Char) : List Char → List (List Char)
  | [] => [[]]
  | c :: rest =>
    match jsSplit sep rest with
    | [] => [[c]]
    | h :: t => if c = sep then [] :: h :: t else (c :: h) :: t

/-- `String.prototype.substring(a, b)`: both indices are clamped to the
string length and swapped when out of order. -/
def jsSubstring (s : List Char) (a b : Nat) : List Char :=
  (s.take (max (min a s.length) (min b s.length))).drop
    (min (min a s.length) (min b s.length))

/-- `String.prototype.replace` with a plain-string pattern: replaces only the
first occurrence of `pat` in the subject (an empty pattern matches at index 0).
`replaceFirst pat rep s` corresponds to JS `s.replace(pat, rep)`. -/
def replaceFirst (pat rep : List Char) : List Char → List Char
  | [] => if pat.isPrefixOf ([] : List Char) then rep else []
  | c :: rest =>
    if pat.isPrefixOf (c :: rest) then rep ++ (c :: rest).drop pat.length
    else c :: replaceFirst pat rep rest

/-! ### CodeEditor widget -/

/-- The per-line gutter numerals computed by the CodeEditor:
`value.split('\n').map((_, index) => index + 1)`. -/
def lineNumberList (value : List Char) : List Nat :=
  ((jsSplit '\n' value).enum).map (fun p => p.1 + 1)

/-- `Array.prototype.join('\n')` over a list of strings. -/
def joinNewline : List (List Char) → List Char
  | [] => []
  | [x] => x
  | x :: y :: t => x ++ '\n' :: joinNewline (y :: t)

/-- The rendered gutter text:
`value.split('\n').map((_, index) => index + 1).join('\n') || '1'` -/
def gutterText (value : List Char) : List Char :=
  let s := joinNewline ((lineNumberList value).map (fun n => (Nat.repr n).data))
  if s.isEmpty then ['1'] else s

/-- Outcome of the CodeEditor `onKeyDown` handler when it intercepts a key:
whether the default browser behavior was suppressed, the new buffer handed to
`onChange`, and the caret position scheduled for the textarea. -/
structure KeyDownResult where
  preventDefault : Bool
  newValue : List Char
  caret : Nat
deriving DecidableEq

/-- `handleKeyDown` of the CodeEditor: on `Tab`, call `preventDefault`,
splice two spaces over `[selectionStart, selectionEnd)` using
`value.substring(0, start) + '  ' + value.substring(end)`, and schedule the
caret at `start + 2`; any other key is not intercepted. -/
def handleKeyDown (key value : List Char) (selectionStart selectionEnd : Nat) :
    Option KeyDownResult :=
  if key = "Tab".data then
    some { preventDefault := true
           newValue := jsSubstring value 0 selectionStart ++ [' ', ' '] ++
             jsSubstring value selectionEnd value.length
           caret := selectionStart + 2 }
  else none

/-! ### App controller state -/

/-- Toast severity, the second argument of `showToast`. -/
inductive ToastType where
  | info
  | error
  | success
deriving DecidableEq

/-- One toast notification created by `showToast`. -/
structure Toast where
  message : List Char
  kind : ToastType
deriving DecidableEq

/-- One finding consumed from the analysis endpoint: `line`, `type`, `message`. -/
structure Issue where
  line : Int
  type : List Char
  message : List Char
deriving DecidableEq

/-- The JSON body consumed from the analysis endpoint: an object optionally
carrying an `issues` array (`issues` may be absent). -/
structure AnalysisResults where
  issues : Option (List Issue)
deriving DecidableEq

/-- A browser `File` object as used by the handlers: `name`, `size` (bytes),
declared MIME `type`, and the raw byte content. -/
structure JsFile where
  name : List Char
  size : Nat
  type : List Char
  bytes : List Char
deriving DecidableEq

/-- The React state of `App`: `contractCode`, `githubUrl`, `analysisResults`,
`isAnalyzing`, `selectedFile`, plus the list of toasts shown so far
(modelling the DOM side effect of `showToast`). -/
structure AppState where
  contractCode : List Char
  githubUrl : List Char
  analysisResults : Option AnalysisResults
  isAnalyzing : Bool
  selectedFile : Option JsFile
  toasts : List Toast
deriving DecidableEq

/-- `showToast(message, type)`: appends a toast to the document. -/
def showToast (st : AppState) (message : List Char) (kind : ToastType) : AppState :=
  { st with toasts := st.toasts ++ [{ message := message, kind := kind }] }

def initialAppState : AppState :=
  { contractCode := [], githubUrl := [], analysisResults := none,
    isAnalyzing := false, selectedFile := none, toasts := [] }

/-! ### Analyze submission (`handleAnalyzeContract`) -/

/-- One part of the multipart analysis payload: either the originally selected
file attached verbatim, or a synthetic blob built from the edited text. -/
inductive FilePart where
  | realFile (f : JsFile)
  | syntheticBlob (bytes blobType filename : List Char)
deriving DecidableEq

/-- One `formData.append` entry: field name and attached part. -/
structure FormEntry where
  field : List Char
  part : FilePart
deriving DecidableEq

def msgNoInput : List Char :=
  "Please select a file or enter contract code to analyze".data
def msgAnalyzeSuccess : List Char :=
  "Contract analysis completed successfully!".data
def msgAnalyzeFail : List Char :=
  "Failed to analyze contract. Please try again.".data
def msgEnterUrl : List Char := "Please enter a GitHub URL".data
def msgImportSuccess : List Char := "Code imported from GitHub successfully!".data
def msgImportFail : List Char :=
  "Failed to import from GitHub. Please check the URL.".data
def msgFileNotUploaded : List Char := "File not uploaded".data
def msgBadFileType : List Char :=
  "Please select a valid contract file (.cpp, .h, .sol, .js, .ts, .py, .rs, .go, .txt)".data
def msgFileTooLarge : List Char := "File size must be less than 5MB".data
def msgReadFail : List Char := "Failed to read file. Please try again.".data

/-- `File "<name>" selected successfully!` -/
def msgFileSelected (name : List Char) : List Char :=
  "File \"".data ++ name ++ "\" selected successfully!".data

/-- The multipart body built inside the `try` block of `handleAnalyzeContract`:
a fresh `FormData` receives exactly one `append` — the selected file itself,
or a `text/plain` blob of `contractCode` filed as `contract.cpp`. -/
def buildAnalyzeFormData (selectedFile : Option JsFile) (contractCode : List Char) :
    List FormEntry :=
  match selectedFile with
  | some file => [{ field := "file".data, part := FilePart.realFile file }]
  | none =>
    [{ field := "file".data,
       part := FilePart.syntheticBlob contractCode "text/plain".data "contract.cpp".data }]

/-- Outcome of the `fetch` to the analysis endpoint: a network-level failure,
or an HTTP response with its `ok` flag and (when the body parses as JSON)
the decoded result — `none` models a `response.json()` parse failure. -/
inductive FetchOutcome where
  | networkError
  | httpResponse (ok : Bool) (body : Option AnalysisResults)
deriving DecidableEq

/-- The guard at the top of `handleAnalyzeContract`:
`!selectedFile && !contractCode.trim()`. -/
def analyzeValidationFails (st : AppState) : Bool :=
  st.selectedFile.isNone && (trim st.contractCode).isEmpty

/-- First phase of `handleAnalyzeContract`: validation and request launch.
Returns the state as of the moment the `fetch` is issued, together with the
form data sent (`none` when validation failed and no request was made). -/
def startAnalyze (st : AppState) : AppState × Option (List FormEntry) :=
  if analyzeValidationFails st then
    (showToast st msgNoInput ToastType.error, none)
  else
    ({ st with isAnalyzing := true },
     some (buildAnalyzeFormData st.selectedFile st.contractCode))

/-- Second phase of `handleAnalyzeContract`: the continuation run when the
`fetch` settles.  A non-`ok` response throws, a JSON parse failure throws,
and every `catch` path shows the generic failure toast (a `fetch` error never
carries the `error.response` field tested first, so that branch is dead);
the `finally` clause resets `isAnalyzing`. -/
def finishAnalyze (st : AppState) (net : FetchOutcome) : AppState :=
  match net with
  | FetchOutcome.networkError =>
    { showToast st msgAnalyzeFail ToastType.error with isAnalyzing := false }
  | FetchOutcome.httpResponse ok body =>
    if ok then
      match body with
      | some results =>
        { showToast { st with analysisResults := some results }
            msgAnalyzeSuccess ToastType.success with isAnalyzing := false }
      | none =>
        { showToast st msgAnalyzeFail ToastType.error with isAnalyzing := false }
    else
      { showToast st msgAnalyzeFail ToastType.error with isAnalyzing := false }

/-- The whole of `handleAnalyzeContract` for one submission whose `fetch`
settles with outcome `net`: final state and the form data sent (if any). -/
def handleAnalyzeContract (st : AppState) (net : FetchOutcome) :
    AppState × Option (List FormEntry) :=
  match startAnalyze st with
  | (st1, none) => (st1, none)
  | (st1, some fd) => (finishAnalyze st1 net, some fd)

/-- An outcome counts as a failed submission when the network call fails, the
response is non-2xx, or the body fails to parse as JSON. -/
def fetchFailed : FetchOutcome → Bool
  | FetchOutcome.networkError => true
  | FetchOutcome.httpResponse ok body => !ok || body.isNone

/-! ### GitHub import (`handleImportFromGithub`) -/

/-- Outcome of the raw-content `fetch` of the GitHub import: network failure,
or an HTTP response with its `ok` flag and text body. -/
inductive ImportOutcome where
  | networkError
  | httpResponse (ok : Bool) (body : List Char)
deriving DecidableEq

/-- The URL actually fetched:
`githubUrl.replace('github.com', 'raw.githubusercontent.com').replace('/blob/', '/')`. -/
def rawUrlOf (githubUrl : List Char) : List Char :=
  replaceFirst "/blob/".data "/".data
    (replaceFirst "github.com".data "raw.githubusercontent.com".data githubUrl)

/-- `handleImportFromGithub` for one import whose `fetch` settles with outcome
`net`: final state and the URL fetched (`none` when the blank-URL guard fired
and no request was made).  On success `contractCode` is replaced and
`selectedFile` cleared; every failure path only shows the error toast. -/
def handleImportFromGithub (st : AppState) (net : ImportOutcome) :
    AppState × Option (List Char) :=
  if (trim st.githubUrl).isEmpty then
    (showToast st msgEnterUrl ToastType.error, none)
  else
    match net with
    | ImportOutcome.networkError =>
      (showToast st msgImportFail ToastType.error, some (rawUrlOf st.githubUrl))
    | ImportOutcome.httpResponse ok body =>
      if ok then
        (showToast { st with contractCode := body, selectedFile := none }
           msgImportSuccess ToastType.success, some (rawUrlOf st.githubUrl))
      else
        (showToast st msgImportFail ToastType.error, some (rawUrlOf st.githubUrl))

/-- An import outcome on which the handler lands in its `catch` block. -/
def importFailed : ImportOutcome → Bool
  | ImportOutcome.networkError => true
  | ImportOutcome.httpResponse ok _ => !ok

/-! ### File upload (`handleFileUpload`) -/

/-- `const allowedTypes = ['.h', '.cpp']` -/
def allowedTypes : List (List Char) := [".h".data, ".cpp".data]

/-- `'.' + file.name.split('.').pop().toLowerCase()` -/
def fileExtension (name : List Char) : List Char :=
  '.' :: ((jsSplit '.' name).getLastD []).map Char.toLower

/-- Outcome of the `FileReader.readAsText` call: the decoded text delivered to
`onload`, or a read error delivered to `onerror`. -/
inductive ReadOutcome where
  | loaded (content : List Char)
  | readError
deriving DecidableEq

/-- `handleFileUpload` for the chosen file (`none` when the file list was
empty) whose asynchronous read settles with outcome `read`.  A disallowed
extension or an oversized file returns before any state mutation; otherwise
`selectedFile` is stored and the reader callback later mirrors the decoded
text into `contractCode`. -/
def handleFileUpload (chosen : Option JsFile) (read : ReadOutcome) (st : AppState) :
    AppState :=
  match chosen with
  | none => showToast st msgFileNotUploaded ToastType.error
  | some file =>
    if !(allowedTypes.contains (fileExtension file.name)) then
      showToast st msgBadFileType ToastType.error
    else if file.size > 5 * 1024 * 1024 then
      showToast st msgFileTooLarge ToastType.error
    else
      match read with
      | ReadOutcome.loaded content =>
        showToast { st with selectedFile := some file, contractCode := content }
          (msgFileSelected file.name) ToastType.success
      | ReadOutcome.readError =>
        showToast { st with selectedFile := some file } msgReadFail ToastType.error

/-! ### Results panel rendering (App variant of `src/unnamed/part_000`) -/

/-- The three visually distinct states of the results panel. -/
inductive ResultsPanel where
  | placeholder
  | issuesList (issues : List Issue)
  | noIssuesFound
deriving DecidableEq

/-- The rendering decision of the right panel:
`analysisResults ? (analysisResults.issues && analysisResults.issues.length > 0
? <issue list> : <No Issues Found>) : <placeholder>` — an absent `issues`
field is falsy, so it lands on the same branch as an empty array. -/
def renderResultsPanel (analysisResults : Option AnalysisResults) : ResultsPanel :=
  match analysisResults with
  | none => ResultsPanel.placeholder
  | some r =>
    match r.issues with
    | some issues =>
      if issues.length > 0 then ResultsPanel.issuesList issues
      else ResultsPanel.noIssuesFound
    | none => ResultsPanel.noIssuesFound

/-! ### Event-level model of the Analyze button

The submission `fetch` is asynchronous: between `setIsAnalyzing(true)` and the
`finally` clause the UI can process further events, but the Analyze button is
rendered with `disabled={isAnalyzing}`, so a click in that window is a no-op.
`outstanding` counts the analysis requests currently in flight. -/

structure UIState where
  app : AppState
  outstanding : Nat
deriving DecidableEq

inductive UIEvent where
  | clickAnalyze
  | analysisSettles (net : FetchOutcome)

/-- One step of the event loop: a click on a disabled button does nothing; an
enabled click runs the synchronous prefix of `handleAnalyzeContract` (which
launches a request exactly when validation passes); a settling response runs
the continuation and leaves the in-flight count one lower. -/
def uiStep (s : UIState) : UIEvent → UIState
  | UIEvent.clickAnalyze =>
    if s.app.isAnalyzing then s
    else
      match startAnalyze s.app with
      | (st1, none) => { app := st1, outstanding := s.outstanding }
      | (st1, some _) => { app := st1, outstanding := s.outstanding + 1 }
  | UIEvent.analysisSettles net =>
    match s.outstanding with
    | 0 => s
    | n + 1 => { app := finishAnalyze s.app net, outstanding := n }

def initialUIState : UIState := { app := initialAppState, outstanding := 0 }

def uiRun (s : UIState) (events : List UIEvent) : UIState :=
  events.foldl uiStep s

/-- The safety predicate tying the in-flight request count to the
`isAnalyzing` flag that disables the Analyze button. -/
def uiInv (s : UIState) : Prop :=
  s.outstanding = (if s.app.isAnalyzing then 1 else 0)

/-! ### Sample concrete inputs (used by the witnesses) -/

def sampleFile : JsFile :=
  { name := "vault.cpp".data, size := 1024, type := "text/x-c".data,
    bytes := "int x;".data }

def sampleCodeState : AppState :=
  { initialAppState with contractCode := "int x;".data }

def sampleFileState : AppState :=
  { initialAppState with selectedFile := some sampleFile }

def sampleUrlState : AppState :=
  { initialAppState with
    githubUrl := "https://github.com/u/r/blob/main/f.cpp".data }

/-- A file with an allowed extension of exactly 5 MiB. -/
def boundaryFileOk : JsFile :=
  { name := "contract.cpp".data, size := 5 * 1024 * 1024, type := [], bytes := [] }

/-- A file with an allowed extension of exactly 5 MiB + 1 byte. -/
def boundaryFileBig : JsFile :=
  { name := "contract.cpp".data, size := 5 * 1024 * 1024 + 1, type := [], bytes := [] }

/-! ### Helper lemmas -/

lemma jsSplit_ne_nil (sep : Char) (l : List Char) : jsSplit sep l ≠ [] := by
  induction l with
  | nil => simp [jsSplit]
  | cons c rest ih =>
    simp only [jsSplit]
    rcases h : jsSplit sep rest with _ | ⟨a, t⟩
    · exact absurd h ih
    · by_cases hc : c = sep <;> simp [hc]

lemma length_jsSplit (sep : Char) (l : List Char) :
    (jsSplit sep l).length = l.count sep + 1 := by
  induction l with
  | nil => simp [jsSplit]
  | cons c rest ih =>
    simp only [jsSplit]
    rcases h : jsSplit sep rest with _ | ⟨a, t⟩
    · exact absurd h (jsSplit_ne_nil sep rest)
    · rw [h] at ih
      simp only [List.length_cons] at ih
      dsimp only
      by_cases hc : c = sep
      · rw [if_pos hc, hc, List.count_cons_self]
        simp only [List.length_cons]
        omega
      · rw [if_neg hc, List.count_cons_of_ne (Ne.symm hc)]
        simp only [List.length_cons]
        omega

lemma lineNumberList_eq_range (V : List Char) :
    lineNumberList V = (List.range ((jsSplit '\n' V).length)).map (· + 1) := by
  unfold lineNumberList
  rw [← List.enum_map_fst (jsSplit '\n' V), List.map_map]
  rfl

lemma analyzeValidationFails_eq_false {st : AppState}
    (hval : st.selectedFile ≠ none ∨ trim st.contractCode ≠ []) :
    analyzeValidationFails st = false := by
  unfold analyzeValidationFails
  rcases hval with h | h
  · rcases hsel : st.selectedFile with _ | f
    · exact absurd hsel h
    · simp [hsel]
  · have htr : (trim st.contractCode).isEmpty = false := by
      rcases htr : trim st.contractCode with _ | ⟨a, t⟩
      · exact absurd htr h
      · rfl
    simp [htr]

lemma finishAnalyze_isAnalyzing (st : AppState) (net : FetchOutcome) :
    (finishAnalyze st net).isAnalyzing = false := by
  rcases net with _ | ⟨ok, body⟩
  · rfl
  · rcases body with _ | r <;> rcases ok <;> rfl

lemma uiInv_step {s : UIState} (hinv : uiInv s) (e : UIEvent) :
    uiInv (uiStep s e) := by
  rcases e with _ | net
  · by_cases ha : s.app.isAnalyzing
    · simpa [uiStep, ha] using hinv
    · have h0 : s.outstanding = 0 := by simpa [uiInv, ha] using hinv
      by_cases hv : analyzeValidationFails s.app
      · simp [uiStep, ha, uiInv, startAnalyze, hv, showToast, h0]
      · simp [uiStep, ha, uiInv, startAnalyze, hv, h0]
  · rcases ho : s.outstanding with _ | n
    · simpa [uiStep, ho] using hinv
    · rw [uiInv, ho] at hinv
      rcases hb : s.app.isAnalyzing
      · rw [hb] at hinv
        simp at hinv
      · rw [hb] at hinv
        simp at hinv
        have hn : n = 0 := by omega
        simp [uiStep, ho, uiInv, finishAnalyze_isAnalyzing, hn]

lemma uiInv_run {s : UIState} (hinv : uiInv s) (evs : List UIEvent) :
    uiInv (uiRun s evs) := by
  induction evs generalizing s with
  | nil => exact hinv
  | cons e t ih =>
    simp only [uiRun, List.foldl_cons]
    exact ih (uiInv_step hinv e)

end QubicApp

/-- Claim C1: for every buffer `V` and caret selection `[S, E]` with
`0 ≤ S ≤ E ≤ |V|`, pressing Tab while the editor pane has focus suppresses the
default focus-navigation behavior (`preventDefault := true`) and produces the
buffer `V[0:S] ++ "  " ++ V[E:]` with the caret repositioned to `S + 2`;
with `S = E` this is insertion at the caret, and it is correct at the start,
middle, and end of the buffer. -/
theorem QubicApp.C1_tab_key_indents (V : List Char) (S E : Nat)
    (hSE : S ≤ E) (hE : E ≤ V.length) :
    QubicApp.handleKeyDown "Tab".data V S E =
      some { preventDefault := true
             newValue := V.take S ++ [' ', ' '] ++ V.drop E
             caret := S + 2 } := by
  have h1 : QubicApp.jsSubstring V 0 S = V.take S := by
    unfold QubicApp.jsSubstring
    rw [show max (min 0 V.length) (min S V.length) = S by omega,
        show min (min 0 V.length) (min S V.length) = 0 by omega]
    exact List.drop_zero _
  have h2 : QubicApp.jsSubstring V E V.length = V.drop E := by
    unfold QubicApp.jsSubstring
    rw [show max (min E V.length) (min V.length V.length) = V.length by omega,
        show min (min E V.length) (min V.length V.length) = E by omega,
        List.take_length]
  simp [QubicApp.handleKeyDown, h1, h2]

/-- Witness for C1 at a concrete input: buffer `"abcd"`, selection `[1, 3]`
becomes `"a  d"` with the caret at 3 and the default behavior suppressed. -/
theorem QubicApp.C1_tab_key_indents_witness :
    QubicApp.handleKeyDown "Tab".data "abcd".data 1 3 =
      some { preventDefault := true, newValue := "a  d".data, caret := 3 } := by
  have h := QubicApp.C1_tab_key_indents "abcd".data 1 3 (by decide) (by decide)
  rw [h]
  rfl

/-- Claim C2: for every text value `V` the line-number gutter consists of
exactly the numerals `1` through `N` where `N` is the number of
newline-delimited segments of `V` (standard split-by-newline semantics, so a
trailing newline contributes a final segment, and `N = count of newlines + 1`);
for the empty value the rendered gutter text is exactly `"1"`. -/
theorem QubicApp.C2_line_number_gutter (V : List Char) :
    QubicApp.lineNumberList V =
      (List.range ((QubicApp.jsSplit '\n' V).length)).map (· + 1) ∧
    (QubicApp.jsSplit '\n' V).length = V.count '\n' + 1 ∧
    1 ≤ (QubicApp.lineNumberList V).length ∧
    QubicApp.gutterText [] = ['1'] := by
  refine ⟨QubicApp.lineNumberList_eq_range V, QubicApp.length_jsSplit '\n' V, ?_, by rfl⟩
  rw [QubicApp.lineNumberList_eq_range V]
  simp [QubicApp.length_jsSplit '\n' V]

/-- Claim C3: for every submission that passes validation, the analysis
request payload contains exactly one file part and never two — the selected
file attached verbatim when present (name, bytes, and declared type all
travel inside the attached `JsFile`, regardless of the current source text),
otherwise the current source text wrapped as a synthetic `text/plain` file
named `contract.cpp`. -/
theorem QubicApp.C3_exactly_one_file_part (st : QubicApp.AppState)
    (net : QubicApp.FetchOutcome)
    (hval : st.selectedFile ≠ none ∨ QubicApp.trim st.contractCode ≠ []) :
    (QubicApp.handleAnalyzeContract st net).2 =
      some (QubicApp.buildAnalyzeFormData st.selectedFile st.contractCode) ∧
    (QubicApp.buildAnalyzeFormData st.selectedFile st.contractCode).length = 1 ∧
    (∀ f, st.selectedFile = some f →
      QubicApp.buildAnalyzeFormData st.selectedFile st.contractCode =
        [{ field := "file".data, part := QubicApp.FilePart.realFile f }]) ∧
    (st.selectedFile = none →
      QubicApp.buildAnalyzeFormData st.selectedFile st.contractCode =
        [{ field := "file".data,
           part := QubicApp.FilePart.syntheticBlob st.contractCode
             "text/plain".data "contract.cpp".data }]) := by
  have hv := QubicApp.analyzeValidationFails_eq_false hval
  refine ⟨?_, ?_, ?_, ?_⟩
  · simp [QubicApp.handleAnalyzeContract, QubicApp.startAnalyze, hv]
  · rcases hsel : st.selectedFile with _ | f <;>
      simp [QubicApp.buildAnalyzeFormData, hsel]
  · intro f hf
    rw [hf]
    rfl
  · intro hf
    rw [hf]
    rfl

/-- Witness for C3 at concrete inputs: with the sample file selected the
payload is that file itself; with only edited text it is the synthetic
`contract.cpp` blob. -/
theorem QubicApp.C3_exactly_one_file_part_witness :
    (QubicApp.handleAnalyzeContract QubicApp.sampleFileState
        QubicApp.FetchOutcome.networkError).2 =
      some [{ field := "file".data,
              part := QubicApp.FilePart.realFile QubicApp.sampleFile }] ∧
    (QubicApp.handleAnalyzeContract QubicApp.sampleCodeState
        QubicApp.FetchOutcome.networkError).2 =
      some [{ field := "file".data,
              part := QubicApp.FilePart.syntheticBlob "int x;".data
                "text/plain".data "contract.cpp".data }] := by
  constructor
  · have h := QubicApp.C3_exactly_one_file_part QubicApp.sampleFileState
      QubicApp.FetchOutcome.networkError (Or.inl (by decide))
    rw [h.1, h.2.2.1 QubicApp.sampleFile rfl]
  · have h := QubicApp.C3_exactly_one_file_part QubicApp.sampleCodeState
      QubicApp.FetchOutcome.networkError (Or.inr (by decide))
    rw [h.1, h.2.2.2 rfl]
    rfl

/-- Claim C4: when no file is selected and the source text is blank (empty or
whitespace-only, so that `trim` empties it), triggering Analyze issues no
network request, surfaces an error toast, and leaves `contractCode`,
`selectedFile`, `analysisResults` and the in-flight flag unchanged. -/
theorem QubicApp.C4_blank_submission_no_request (st : QubicApp.AppState)
    (net : QubicApp.FetchOutcome)
    (hfile : st.selectedFile = none)
    (hblank : QubicApp.trim st.contractCode = []) :
    (QubicApp.handleAnalyzeContract st net).2 = none ∧
    (QubicApp.handleAnalyzeContract st net).1.contractCode = st.contractCode ∧
    (QubicApp.handleAnalyzeContract st net).1.selectedFile = st.selectedFile ∧
    (QubicApp.handleAnalyzeContract st net).1.analysisResults = st.analysisResults ∧
    (QubicApp.handleAnalyzeContract st net).1.isAnalyzing = st.isAnalyzing ∧
    (QubicApp.handleAnalyzeContract st net).1.toasts =
      st.toasts ++ [{ message := QubicApp.msgNoInput,
                      kind := QubicApp.ToastType.error }] := by
  have hv : QubicApp.analyzeValidationFails st = true := by
    simp [QubicApp.analyzeValidationFails, hfile, hblank]
  simp [QubicApp.handleAnalyzeContract, QubicApp.startAnalyze, hv, QubicApp.showToast]

/-- Witness for C4 at a concrete input: the initial state (no file, empty
text) sends nothing and keeps its state, whatever the network would answer. -/
theorem QubicApp.C4_blank_submission_no_request_witness :
    (QubicApp.handleAnalyzeContract QubicApp.initialAppState
        QubicApp.FetchOutcome.networkError).2 = none ∧
    (QubicApp.handleAnalyzeContract QubicApp.initialAppState
        QubicApp.FetchOutcome.networkError).1.analysisResults =
      QubicApp.initialAppState.analysisResults := by
  have h := QubicApp.C4_blank_submission_no_request QubicApp.initialAppState
    QubicApp.FetchOutcome.networkError (by decide) (by decide)
  exact ⟨h.1, h.2.2.2.1⟩

/-- Claim C9: it is never the case that two analysis submissions are
outstanding at once — along every event sequence from the initial state
(clicks and response arrivals in any order), the number of in-flight analysis
requests stays at most one, because the Analyze button is disabled exactly
while `isAnalyzing` is set. -/
theorem QubicApp.C9_at_most_one_outstanding (evs : List QubicApp.UIEvent) :
    (QubicApp.uiRun QubicApp.initialUIState evs).outstanding ≤ 1 := by
  have h0 : QubicApp.uiInv QubicApp.initialUIState := by
    simp [QubicApp.uiInv, QubicApp.initialUIState, QubicApp.initialAppState]
  have h := QubicApp.uiInv_run h0 evs
  rw [QubicApp.uiInv] at h
  rcases hb : (QubicApp.uiRun QubicApp.initialUIState evs).app.isAnalyzing <;>
    rw [hb] at h <;> simp at h <;> omega

/-- Claim C10: a failed submission (network error, non-2xx response, or JSON
parse failure) leaves the stored analysis result unchanged — a previous
result stays, an absent one stays absent — resets the in-flight flag, keeps
the input state, and surfaces only the error toast. -/
theorem QubicApp.C10_failure_preserves_result (st : QubicApp.AppState)
    (net : QubicApp.FetchOutcome)
    (hval : st.selectedFile ≠ none ∨ QubicApp.trim st.contractCode ≠ [])
    (hfail : QubicApp.fetchFailed net = true) :
    (QubicApp.handleAnalyzeContract st net).1.analysisResults = st.analysisResults ∧
    (QubicApp.handleAnalyzeContract st net).1.isAnalyzing = false ∧
    (QubicApp.handleAnalyzeContract st net).1.contractCode = st.contractCode ∧
    (QubicApp.handleAnalyzeContract st net).1.selectedFile = st.selectedFile ∧
    (QubicApp.handleAnalyzeContract st net).1.toasts =
      st.toasts ++ [{ message := QubicApp.msgAnalyzeFail,
                      kind := QubicApp.ToastType.error }] := by
  have hv := QubicApp.analyzeValidationFails_eq_false hval
  rcases net with _ | ⟨ok, body⟩
  · simp [QubicApp.handleAnalyzeContract, QubicApp.startAnalyze, hv,
      QubicApp.finishAnalyze, QubicApp.showToast]
  · rcases body with _ | r
    · simp [QubicApp.handleAnalyzeContract, QubicApp.startAnalyze, hv,
        QubicApp.finishAnalyze, QubicApp.showToast, ite_self]
    · have hok : ok = false := by
        simpa [QubicApp.fetchFailed] using hfail
      subst hok
      simp [QubicApp.handleAnalyzeContract, QubicApp.startAnalyze, hv,
        QubicApp.finishAnalyze, QubicApp.showToast]

/-- Witness for C10 at a concrete input: a network error on a submission of
the sample edited text leaves the (absent) result and the text in place and
clears the in-flight flag. -/
theorem QubicApp.C10_failure_preserves_result_witness :
    (QubicApp.handleAnalyzeContract QubicApp.sampleCodeState
        QubicApp.FetchOutcome.networkError).1.analysisResults =
      QubicApp.sampleCodeState.analysisResults ∧
    (QubicApp.handleAnalyzeContract QubicApp.sampleCodeState
        QubicApp.FetchOutcome.networkError).1.isAnalyzing = false := by
  have h := QubicApp.C10_failure_preserves_result QubicApp.sampleCodeState
    QubicApp.FetchOutcome.networkError (Or.inr (by decide)) (by decide)
  exact ⟨h.1, h.2.1⟩

/-- Claim C5: file-selection validation rejects a chosen file exactly when its
extension (built from the segment after the last dot, lowercased) is outside
the allow-list or its size strictly exceeds 5 × 1024 × 1024 bytes; a rejected
selection mutates neither `contractCode` nor `selectedFile` (nor the stored
result), and an accepted one sets `selectedFile` to the chosen file. -/
theorem QubicApp.C5_file_validation (st : QubicApp.AppState) (f : QubicApp.JsFile)
    (read : QubicApp.ReadOutcome) :
    (QubicApp.allowedTypes.contains (QubicApp.fileExtension f.name) = false ∨
        f.size > 5 * 1024 * 1024 →
      (QubicApp.handleFileUpload (some f) read st).selectedFile = st.selectedFile ∧
      (QubicApp.handleFileUpload (some f) read st).contractCode = st.contractCode ∧
      (QubicApp.handleFileUpload (some f) read st).analysisResults =
        st.analysisResults) ∧
    (QubicApp.allowedTypes.contains (QubicApp.fileExtension f.name) = true ∧
        f.size ≤ 5 * 1024 * 1024 →
      (QubicApp.handleFileUpload (some f) read st).selectedFile = some f) := by
  constructor
  · intro h
    rcases h with h | h
    · have hmem : QubicApp.fileExtension f.name ∉ QubicApp.allowedTypes := by
        simpa using h
      simp [QubicApp.handleFileUpload, hmem, QubicApp.showToast]
    · by_cases hmem : QubicApp.fileExtension f.name ∈ QubicApp.allowedTypes
      · simp [QubicApp.handleFileUpload, hmem, h, QubicApp.showToast]
      · simp [QubicApp.handleFileUpload, hmem, QubicApp.showToast]
  · rintro ⟨hext, hsize⟩
    have hmem : QubicApp.fileExtension f.name ∈ QubicApp.allowedTypes := by
      simpa using hext
    have hs : ¬ (f.size > 5 * 1024 * 1024) := by omega
    rcases read with ⟨content⟩ | _ <;>
      simp [QubicApp.handleFileUpload, hmem, hs, QubicApp.showToast]

/-- Witness for C5 at the size boundary: a `.cpp` file of exactly 5 MiB is
accepted (`selectedFile` is set), one of exactly 5 MiB + 1 byte is rejected
(`selectedFile` stays as it was). -/
theorem QubicApp.C5_file_validation_witness :
    (QubicApp.handleFileUpload (some QubicApp.boundaryFileOk)
        (QubicApp.ReadOutcome.loaded []) QubicApp.initialAppState).selectedFile =
      some QubicApp.boundaryFileOk ∧
    (QubicApp.handleFileUpload (some QubicApp.boundaryFileBig)
        (QubicApp.ReadOutcome.loaded []) QubicApp.initialAppState).selectedFile =
      QubicApp.initialAppState.selectedFile := by
  constructor
  · exact (QubicApp.C5_file_validation QubicApp.initialAppState
      QubicApp.boundaryFileOk (QubicApp.ReadOutcome.loaded [])).2
      ⟨by decide, by decide⟩
  · exact ((QubicApp.C5_file_validation QubicApp.initialAppState
      QubicApp.boundaryFileBig (QubicApp.ReadOutcome.loaded [])).1
      (Or.inr (by decide))).1

/-- Claim C6: a GitHub import whose fetch succeeds replaces `contractCode`
with the fetched text and clears `selectedFile` (the import becomes the
authoritative source); a failed fetch surfaces an error toast and leaves
`contractCode`, `selectedFile` and the stored result untouched. -/
theorem QubicApp.C6_import_replaces_or_preserves (st : QubicApp.AppState)
    (hurl : (QubicApp.trim st.githubUrl).isEmpty = false) :
    (∀ body : List Char,
      (QubicApp.handleImportFromGithub st
          (QubicApp.ImportOutcome.httpResponse true body)).1.contractCode = body ∧
      (QubicApp.handleImportFromGithub st
          (QubicApp.ImportOutcome.httpResponse true body)).1.selectedFile = none ∧
      (QubicApp.handleImportFromGithub st
          (QubicApp.ImportOutcome.httpResponse true body)).1.toasts =
        st.toasts ++ [{ message := QubicApp.msgImportSuccess,
                        kind := QubicApp.ToastType.success }]) ∧
    (∀ net, QubicApp.importFailed net = true →
      (QubicApp.handleImportFromGithub st net).1.contractCode = st.contractCode ∧
      (QubicApp.handleImportFromGithub st net).1.selectedFile = st.selectedFile ∧
      (QubicApp.handleImportFromGithub st net).1.analysisResults =
        st.analysisResults ∧
      (QubicApp.handleImportFromGithub st net).1.toasts =
        st.toasts ++ [{ message := QubicApp.msgImportFail,
                        kind := QubicApp.ToastType.error }]) := by
  constructor
  · intro body
    simp [QubicApp.handleImportFromGithub, hurl, QubicApp.showToast]
  · intro net hnet
    rcases net with _ | ⟨ok, body⟩
    · simp [QubicApp.handleImportFromGithub, hurl, QubicApp.showToast]
    · have hok : ok = false := by
        simpa [QubicApp.importFailed] using hnet
      subst hok
      simp [QubicApp.handleImportFromGithub, hurl, QubicApp.showToast]

/-- Witness for C6 at concrete inputs: a successful import of `"x"` into the
sample state (which has a non-blank URL) installs `"x"` and clears the file;
a network failure leaves the file selection alone. -/
theorem QubicApp.C6_import_replaces_or_preserves_witness :
    (QubicApp.handleImportFromGithub QubicApp.sampleUrlState
        (QubicApp.ImportOutcome.httpResponse true "x".data)).1.contractCode =
      "x".data ∧
    (QubicApp.handleImportFromGithub QubicApp.sampleUrlState
        (QubicApp.ImportOutcome.httpResponse true "x".data)).1.selectedFile = none ∧
    (QubicApp.handleImportFromGithub QubicApp.sampleUrlState
        QubicApp.ImportOutcome.networkError).1.contractCode =
      QubicApp.sampleUrlState.contractCode := by
  have h := QubicApp.C6_import_replaces_or_preserves QubicApp.sampleUrlState
    (by decide)
  exact ⟨(h.1 "x".data).1, (h.1 "x".data).2.1,
    (h.2 QubicApp.ImportOutcome.networkError rfl).1⟩

/-- Claim C7: for every non-blank user-supplied URL the GitHub import fetches
exactly the URL obtained by substituting the first occurrence of
`github.com` with `raw.githubusercontent.com` and then replacing the first
`/blob/` marker with `/`; a blank (empty or whitespace-only) URL is rejected
with no fetch at all. -/
theorem QubicApp.C7_raw_url_transformation (st : QubicApp.AppState)
    (net : QubicApp.ImportOutcome) :
    ((QubicApp.trim st.githubUrl).isEmpty = false →
      (QubicApp.handleImportFromGithub st net).2 =
        some (QubicApp.replaceFirst "/blob/".data "/".data
          (QubicApp.replaceFirst "github.com".data
            "raw.githubusercontent.com".data st.githubUrl))) ∧
    ((QubicApp.trim st.githubUrl).isEmpty = true →
      (QubicApp.handleImportFromGithub st net).2 = none) := by
  constructor
  · intro hurl
    rcases net with _ | ⟨ok, body⟩
    · simp [QubicApp.handleImportFromGithub, hurl, QubicApp.rawUrlOf]
    · rcases ok <;>
        simp [QubicApp.handleImportFromGithub, hurl, QubicApp.rawUrlOf]
  · intro hurl
    simp [QubicApp.handleImportFromGithub, hurl]

/-- Witness for C7 at concrete inputs: the sample blob URL
`https://github.com/u/r/blob/main/f.cpp` is fetched as
`https://raw.githubusercontent.com/u/r/main/f.cpp`, and the initial state
(blank URL) fetches nothing. -/
theorem QubicApp.C7_raw_url_transformation_witness :
    (QubicApp.handleImportFromGithub QubicApp.sampleUrlState
        QubicApp.ImportOutcome.networkError).2 =
      some "https://raw.githubusercontent.com/u/r/main/f.cpp".data ∧
    (QubicApp.handleImportFromGithub QubicApp.initialAppState
        QubicApp.ImportOutcome.networkError).2 = none := by
  constructor
  · have h := (QubicApp.C7_raw_url_transformation QubicApp.sampleUrlState
      QubicApp.ImportOutcome.networkError).1 (by decide)
    rw [h]
    rfl
  · exact (QubicApp.C7_raw_url_transformation QubicApp.initialAppState
      QubicApp.ImportOutcome.networkError).2 (by decide)

/-- Claim C8: a published result whose `issues` array is absent or empty is
rendered as the dedicated no-issues-found state, which is a different panel
state from the pre-submission placeholder shown when no result exists
(modelled from the App variant in `src/unnamed/part_000`, whose results
panel distinguishes the three states). -/
theorem QubicApp.C8_no_issues_distinct_state (r : QubicApp.AnalysisResults)
    (h : r.issues = none ∨ r.issues = some []) :
    QubicApp.renderResultsPanel (some r) = QubicApp.ResultsPanel.noIssuesFound ∧
    QubicApp.renderResultsPanel none = QubicApp.ResultsPanel.placeholder ∧
    QubicApp.ResultsPanel.noIssuesFound ≠ QubicApp.ResultsPanel.placeholder := by
  refine ⟨?_, rfl, by decide⟩
  rcases h with h | h <;> simp [QubicApp.renderResultsPanel, h]

/-- Witness for C8 at a concrete input: the mocked response `{"issues":[]}`
reaches the no-issues-found state. -/
theorem QubicApp.C8_no_issues_distinct_state_witness :
    QubicApp.renderResultsPanel (some { issues := some [] }) =
      QubicApp.ResultsPanel.noIssuesFound := by
  exact (QubicApp.C8_no_issues_distinct_state { issues := some [] }
    (Or.inr rfl)).1
